import Mathlib

/-!
Verification of the CodeBuddy-AI review action (`src/index.ts`).

The development embeds the TypeScript source shallowly:

* `FileChange` mirrors the record returned by the source-control
  "list changed files" endpoint.
* `shouldExcludeFile` mirrors the file filter (pattern list + size cap).
* `createReviewPrompt` mirrors the prompt builder.
* `getGeminiReview` mirrors the model client, with the HTTP transport
  abstracted into a `FetchResponse` record.
* `run` mirrors the orchestrator; the externally observable effects
  (invoking the model endpoint, creating the PR comment) are recorded in
  the returned `RunResult`.

JavaScript truthiness is modelled explicitly wherever the source relies
on it (empty strings and `undefined` are falsy).
-/

namespace CodeBuddy

/-- The changed-file record consumed by the action (interface `FileChange`
in the source): filename, optional patch text, status string, addition,
deletion and total change counts. -/
structure FileChange where
  filename : String
  patch : Option String
  status : String
  additions : Nat
  deletions : Nat
  changes : Nat
  deriving DecidableEq

/-- Boolean test that `pat` is a prefix of `l` (character lists). -/
def listIsPrefixOf : List Char → List Char → Bool
  | [], _ => true
  | _ :: _, [] => false
  | a :: as, b :: bs => a == b && listIsPrefixOf as bs

/-- Boolean test that `pat` occurs as a contiguous substring of `l`
(character lists); this is what an unanchored literal regex such as
`/\.git/` or `/node_modules/` tests. -/
def listIsInfixOf : List Char → List Char → Bool
  | pat, [] => listIsPrefixOf pat []
  | pat, c :: rest => listIsPrefixOf pat (c :: rest) || listIsInfixOf pat rest

/-- Boolean test that `pat` is a suffix of `l` (character lists); this is
what a `$`-anchored literal regex such as `/\.lock$/` tests. -/
def listIsSuffixOf (pat l : List Char) : Bool :=
  listIsPrefixOf pat.reverse l.reverse

/-- String-level substring containment: `containsSubstr s pat` holds when
`pat` occurs contiguously inside `s`. -/
def containsSubstr (s pat : String) : Bool :=
  listIsInfixOf pat.data s.data

/-- One entry of the `EXCLUDED_FILE_PATTERNS` list in the source.  Every
regex in that list is either a `$`-anchored literal (a suffix match) or an
unanchored literal (a substring match). -/
inductive FilePattern where
  | endsWith (suffix : String)
  | containsSub (sub : String)

/-- Semantics of `pattern.test(filename)` for the two pattern shapes. -/
def FilePattern.test : FilePattern → String → Bool
  | .endsWith suffix, s => listIsSuffixOf suffix.data s.data
  | .containsSub sub, s => listIsInfixOf sub.data s.data

/-- The `EXCLUDED_FILE_PATTERNS` array of the source, in source order.
The alternations `/\.min\.(js|css)$/` and `/\.bundle\.(js|css)$/` are
expanded into their two suffix alternatives. -/
def EXCLUDED_FILE_PATTERNS : List FilePattern := [
  FilePattern.endsWith ".lock",
  FilePattern.endsWith "package-lock.json",
  FilePattern.endsWith "yarn.lock",
  FilePattern.endsWith "pnpm-lock.yaml",
  FilePattern.endsWith ".min.js",
  FilePattern.endsWith ".min.css",
  FilePattern.endsWith ".bundle.js",
  FilePattern.endsWith ".bundle.css",
  FilePattern.containsSub "node_modules",
  FilePattern.containsSub ".git",
  FilePattern.endsWith ".DS_Store",
  FilePattern.endsWith ".log",
  FilePattern.endsWith ".tmp",
  FilePattern.endsWith ".temp"
]

/-- The `MAX_FILE_SIZE` constant of the source (characters). -/
def MAX_FILE_SIZE : Nat := 50000

/-- The file filter `shouldExcludeFile(filename, patch?)` of the source:
first the pattern check, then the size check.  The JavaScript guard
`patch && patch.length > MAX_FILE_SIZE` is falsy for `undefined` and for
the empty string, hence the explicit `p ≠ ""` conjunct. -/
def shouldExcludeFile (filename : String) (patch : Option String) : Bool :=
  if EXCLUDED_FILE_PATTERNS.any (fun pattern => pattern.test filename) then
    true
  else
    match patch with
    | some p => if p ≠ "" ∧ p.length > MAX_FILE_SIZE then true else false
    | none => false

/-- A concrete patch text of 50001 characters, one over the size cap. -/
def bigPatch : String := String.replicate 50001 'a'

/-- JavaScript `value || default` on an optional string: `undefined` and
the empty string are falsy and select the default. -/
def jsOrElse (value : Option String) (dflt : String) : String :=
  match value with
  | some s => if s = "" then dflt else s
  | none => dflt

/-- Sum of the `changes` fields, as computed by
`files.reduce((sum, file) => sum + file.changes, 0)`. -/
def totalChanges (files : List FileChange) : Nat :=
  files.foldl (fun sum file => sum + file.changes) 0

/-- JavaScript truthiness of `file.patch`: present and non-empty. -/
def hasPatch (file : FileChange) : Bool :=
  match file.patch with
  | some p => !(p == "")
  | none => false

/-- The per-file block appended by the `files.forEach` loop of
`createReviewPrompt` when `file.patch` is truthy; the empty string when
the patch is absent or empty (the loop body is skipped). -/
def fileBlock (index : Nat) (file : FileChange) : String :=
  match file.patch with
  | some p =>
    if p = "" then ""
    else
      "**File " ++ toString (index + 1) ++ ": " ++ file.filename ++ "** (" ++
        file.status ++ ", +" ++ toString file.additions ++ "/-" ++
        toString file.deletions ++ ")\n```diff\n" ++ p ++ "\n```\n\n"
  | none => ""

/-- Concatenation of the per-file blocks, indexed from `index` onward,
mirroring `files.forEach((file, index) => ...)`. -/
def renderBlocksFrom : Nat → List FileChange → String
  | _, [] => ""
  | index, file :: rest => fileBlock index file ++ renderBlocksFrom (index + 1) rest

/-- Fixed opening text of the prompt template, up to the title splice. -/
def promptIntro : String :=
  "You are an expert code reviewer with extensive experience in software development. Please review the following pull request changes and provide constructive, actionable feedback.\n\n**Pull Request Context:**\n- Title: "

/-- Fixed middle text of the prompt template, from after the total-changes
splice through the review guidelines. -/
def promptGuidelines : String :=
  " lines\n\n**Review Guidelines:**\n1. Focus on code quality, security, performance, and maintainability\n2. Identify potential bugs, edge cases, and improvements\n3. Check for proper error handling and validation\n4. Ensure code follows best practices and conventions\n5. Suggest specific improvements with clear explanations\n6. Be constructive and professional in your feedback\n\n**Code Changes to Review:**\n\n"

/-- Fixed closing instruction of the prompt template. -/
def promptClosing : String :=
  "Please provide a comprehensive review covering:\n- Overall assessment of the changes\n- Specific issues or concerns\n- Suggestions for improvement\n- Security considerations (if any)\n- Performance implications (if any)\n\nFormat your response in a clear, structured way that will be helpful for the developer."

/-- The prompt builder `createReviewPrompt(files, prTitle?, prBody?)` of
the source: header with title/description defaults, file count, summed
change count, fixed guidelines, one block per truthy-patch file, fixed
closing instruction. -/
def createReviewPrompt (files : List FileChange) (prTitle prBody : Option String) : String :=
  promptIntro ++ jsOrElse prTitle "No title provided" ++
    "\n- Description: " ++ jsOrElse prBody "No description provided" ++
    "\n- Files changed: " ++ toString files.length ++
    "\n- Total changes: " ++ toString (totalChanges files) ++
    promptGuidelines ++
    renderBlocksFrom 0 files ++
    promptClosing

/-- A prefix is preserved when the larger list is extended on the right. -/
theorem listIsPrefixOf_append_self (pat t : List Char) :
    listIsPrefixOf pat (pat ++ t) = true := by
  induction pat with
  | nil => rfl
  | cons c cs ih => simp [listIsPrefixOf, ih]

/-- An occurrence survives prepending one character. -/
theorem listIsInfixOf_cons (c : Char) {pat l : List Char}
    (h : listIsInfixOf pat l = true) :
    listIsInfixOf pat (c :: l) = true := by
  simp [listIsInfixOf, h]

/-- An occurrence survives prepending any list. -/
theorem listIsInfixOf_append_left (a : List Char) {pat l : List Char}
    (h : listIsInfixOf pat l = true) :
    listIsInfixOf pat (a ++ l) = true := by
  induction a with
  | nil => simpa using h
  | cons c cs ih => simpa using listIsInfixOf_cons c ih

/-- A list occurs at the head of itself extended on the right. -/
theorem listIsInfixOf_self_append (pat t : List Char) :
    listIsInfixOf pat (pat ++ t) = true := by
  cases pat with
  | nil => cases t <;> simp [listIsInfixOf, listIsPrefixOf]
  | cons c cs =>
    have h := listIsPrefixOf_append_self (c :: cs) t
    simp [listIsInfixOf]
    left
    simpa using h

/-- The empty list occurs in every list. -/
theorem listIsInfixOf_nil (l : List Char) : listIsInfixOf [] l = true := by
  cases l <;> simp [listIsInfixOf, listIsPrefixOf]

/-- A prefix occurrence survives extending the larger list on the right. -/
theorem listIsPrefixOf_append_right {pat l : List Char} (t : List Char)
    (h : listIsPrefixOf pat l = true) :
    listIsPrefixOf pat (l ++ t) = true := by
  induction pat generalizing l with
  | nil => rfl
  | cons a as ih =>
    cases l with
    | nil => simp [listIsPrefixOf] at h
    | cons b bs =>
      simp only [listIsPrefixOf, Bool.and_eq_true] at h
      simp only [List.cons_append, listIsPrefixOf, Bool.and_eq_true]
      exact ⟨h.1, ih h.2⟩

/-- An occurrence survives extending the larger list on the right. -/
theorem listIsInfixOf_append_right {pat l : List Char} (t : List Char)
    (h : listIsInfixOf pat l = true) :
    listIsInfixOf pat (l ++ t) = true := by
  induction l with
  | nil =>
    have hpat : pat = [] := by
      cases pat with
      | nil => rfl
      | cons a as => simp [listIsInfixOf, listIsPrefixOf] at h
    rw [hpat]
    exact listIsInfixOf_nil t
  | cons c rest ih =>
    simp only [listIsInfixOf, Bool.or_eq_true] at h
    simp only [List.cons_append, listIsInfixOf, Bool.or_eq_true]
    rcases h with h | h
    · exact Or.inl (listIsPrefixOf_append_right t h)
    · exact Or.inr (ih h)

end CodeBuddy

namespace CodeBuddy

/-- C3: `createReviewPrompt` is deterministic — equal file lists, equal
optional titles and equal optional bodies yield byte-identical prompts;
the function takes no other input. -/
theorem createReviewPrompt_deterministic
    (files₁ files₂ : List FileChange) (title₁ title₂ body₁ body₂ : Option String)
    (hf : files₁ = files₂) (ht : title₁ = title₂) (hb : body₁ = body₂) :
    createReviewPrompt files₁ title₁ body₁ = createReviewPrompt files₂ title₂ body₂ := by
  rw [hf, ht, hb]

/-- A sample changed file used to instantiate the prompt-builder claims. -/
def sampleFile : FileChange :=
  { filename := "src/app.ts", patch := some "+ let x = 1;",
    status := "modified", additions := 1, deletions := 0, changes := 1 }

/-- Witness for C3: two runs of the prompt builder on the same concrete
inputs produce the same string. -/
theorem createReviewPrompt_deterministic_witness :
    createReviewPrompt [sampleFile] (some "Fix") none =
      createReviewPrompt [sampleFile] (some "Fix") none :=
  createReviewPrompt_deterministic [sampleFile] [sampleFile]
    (some "Fix") (some "Fix") none none rfl rfl rfl

/-- C4: the prompt always contains the decimal rendering of the number of
files in the input list and of the sum of their `changes` fields. -/
theorem createReviewPrompt_contains_counts
    (files : List FileChange) (prTitle prBody : Option String) :
    containsSubstr (createReviewPrompt files prTitle prBody)
        (toString files.length) = true ∧
    containsSubstr (createReviewPrompt files prTitle prBody)
        (toString (totalChanges files)) = true := by
  constructor <;>
    · simp only [createReviewPrompt, containsSubstr, String.data_append,
        List.append_assoc]
      repeat
        first
        | exact listIsInfixOf_self_append _ _
        | apply listIsInfixOf_append_left

/-- A file whose patch is absent or empty contributes an empty block. -/
theorem fileBlock_eq_empty (index : Nat) (file : FileChange)
    (hno : hasPatch file = false) : fileBlock index file = "" := by
  cases hp : file.patch with
  | none => simp [fileBlock, hp]
  | some p =>
    have hpe : p = "" := by simpa [hasPatch, hp] using hno
    simp [fileBlock, hp, hpe]

/-- The block of the `i`-th file occurs inside the rendered block section
started at index `start`. -/
theorem fileBlock_infix_renderBlocksFrom
    (files : List FileChange) (start i : Nat) (h : i < files.length) :
    listIsInfixOf (fileBlock (start + i) (files.get ⟨i, h⟩)).data
      (renderBlocksFrom start files).data = true := by
  induction files generalizing start i with
  | nil => exact absurd h (Nat.not_lt_zero i)
  | cons file rest ih =>
    cases i with
    | zero =>
      simp only [renderBlocksFrom, String.data_append, List.get, Nat.add_zero]
      exact listIsInfixOf_self_append _ _
    | succ j =>
      have hj : j < rest.length := Nat.lt_of_succ_lt_succ h
      have e : start + (j + 1) = (start + 1) + j := by omega
      have hrec := ih (start + 1) j hj
      simp only [renderBlocksFrom, String.data_append, List.get, e]
      exact listIsInfixOf_append_left _ hrec

/-- C5: a per-file block (filename, status, addition/deletion counts and
verbatim diff) appears in the prompt for every input file whose patch is
present and non-empty, while a file with an absent or empty patch
contributes the empty block. -/
theorem createReviewPrompt_per_file_blocks
    (files : List FileChange) (prTitle prBody : Option String)
    (i : Nat) (h : i < files.length) :
    (hasPatch (files.get ⟨i, h⟩) = true →
       containsSubstr (createReviewPrompt files prTitle prBody)
         (fileBlock i (files.get ⟨i, h⟩)) = true) ∧
    (hasPatch (files.get ⟨i, h⟩) = false →
       fileBlock i (files.get ⟨i, h⟩) = "") := by
  constructor
  · intro _
    have hmid := fileBlock_infix_renderBlocksFrom files 0 i h
    rw [Nat.zero_add] at hmid
    simp only [createReviewPrompt, containsSubstr, String.data_append,
      List.append_assoc]
    repeat
      first
      | exact listIsInfixOf_append_right _ hmid
      | apply listIsInfixOf_append_left
  · intro hno
    exact fileBlock_eq_empty i (files.get ⟨i, h⟩) hno

/-- A changed file with a non-empty patch, for the block-rendering witness. -/
def patchedFile : FileChange :=
  { filename := "src/a.ts", patch := some "+ x", status := "added",
    additions := 1, deletions := 0, changes := 1 }

/-- A changed file without a patch, for the block-rendering witness. -/
def patchlessFile : FileChange :=
  { filename := "src/b.ts", patch := none, status := "renamed",
    additions := 0, deletions := 0, changes := 0 }

/-- Witness for C5: in a two-file list, the file with a patch gets its
block embedded in the prompt and the patchless file contributes none. -/
theorem createReviewPrompt_per_file_blocks_witness :
    hasPatch patchedFile = true ∧
    containsSubstr (createReviewPrompt [patchedFile, patchlessFile] (some "T") none)
      (fileBlock 0 patchedFile) = true ∧
    hasPatch patchlessFile = false ∧
    fileBlock 1 patchlessFile = "" := by
  refine ⟨by decide, ?_, by decide, ?_⟩
  · exact (createReviewPrompt_per_file_blocks [patchedFile, patchlessFile]
      (some "T") none 0 (by decide)).1 (by decide)
  · exact (createReviewPrompt_per_file_blocks [patchedFile, patchlessFile]
      (some "T") none 1 (by decide)).2 (by decide)

/-- One element of `candidates[i].content.parts` in the Gemini response
body (interface `GeminiResponse` in the source); every field is optional. -/
structure GeminiPart where
  text : Option String

/-- The `content` object of a Gemini candidate. -/
structure GeminiContent where
  parts : Option (List GeminiPart)

/-- One element of the `candidates` array. -/
structure GeminiCandidate where
  content : Option GeminiContent

/-- The `error` object of a Gemini response body. -/
structure GeminiError where
  message : Option String

/-- The parsed Gemini response body. -/
structure GeminiResponse where
  candidates : Option (List GeminiCandidate)
  error : Option GeminiError

/-- The observable part of the HTTP response the model client consumes:
the `ok` flag, status code and status text, the raw body text (read on
the failure path) and the parsed JSON body (read on the success path). -/
structure FetchResponse where
  ok : Bool
  status : Nat
  statusText : String
  bodyText : String
  json : GeminiResponse

/-- The optional chain
`data?.candidates?.[0]?.content?.parts?.[0]?.text` of the source:
`none` as soon as any link is absent or an array is empty. -/
def extractText (data : GeminiResponse) : Option String :=
  match data.candidates with
  | none => none
  | some cands =>
    match cands with
    | [] => none
    | cand :: _ =>
      match cand.content with
      | none => none
      | some content =>
        match content.parts with
        | none => none
        | some parts =>
          match parts with
          | [] => none
          | part :: _ => part.text

/-- The extracted text filtered through the truthiness guard
`if (!reviewText)`: an absent or empty extracted text yields `none`. -/
def truthyExtract (data : GeminiResponse) : Option String :=
  match extractText data with
  | some t => if t = "" then none else some t
  | none => none

/-- Rendering of a possibly-undefined string inside a JavaScript template
literal: `undefined` prints as the word `undefined`. -/
def jsTemplateOpt : Option String → String
  | some s => s
  | none => "undefined"

/-- The body of the `try` block of `getGeminiReview(prompt, apiKey)`:
non-ok status throws the request-failed message, an `error` field in the
body throws the API-error message, an absent or empty extracted text
throws the empty-response message, otherwise the text is returned. -/
def getGeminiReviewTry (resp : FetchResponse) : Except String String :=
  if resp.ok then
    match resp.json.error with
    | some err =>
      Except.error ("Gemini API error: " ++ jsTemplateOpt err.message)
    | none =>
      match extractText resp.json with
      | some text =>
        if text = "" then
          Except.error "No review content received from Gemini API"
        else Except.ok text
      | none => Except.error "No review content received from Gemini API"
  else
    Except.error ("Gemini API request failed: " ++ toString resp.status ++ " " ++
      resp.statusText ++ " - " ++ resp.bodyText)

/-- The model client `getGeminiReview` of the source: the `catch` block
re-wraps every thrown message with the `Failed to get AI review: `
prefix.  The HTTP request itself is abstracted into the `FetchResponse`
argument. -/
def getGeminiReview (resp : FetchResponse) : Except String String :=
  match getGeminiReviewTry resp with
  | Except.ok text => Except.ok text
  | Except.error msg => Except.error ("Failed to get AI review: " ++ msg)

end CodeBuddy

namespace CodeBuddy

/-- C6: `getGeminiReview` returns a review text exactly when the response
is ok, carries no `error` field, and a non-empty text is extractable from
the first part of the first candidate; each failure mode produces the
corresponding wrapped error message — request-failed with status and body
text, API-error with the embedded message, empty-response otherwise. -/
theorem getGeminiReview_result_spec (resp : FetchResponse) :
    ((∃ text, getGeminiReview resp = Except.ok text) ↔
       (resp.ok = true ∧ resp.json.error = none ∧
        ∃ text, extractText resp.json = some text ∧ text ≠ "")) ∧
    (resp.ok = false →
       getGeminiReview resp = Except.error
         ("Failed to get AI review: " ++
          ("Gemini API request failed: " ++ toString resp.status ++ " " ++
           resp.statusText ++ " - " ++ resp.bodyText))) ∧
    (∀ err, resp.ok = true → resp.json.error = some err →
       getGeminiReview resp = Except.error
         ("Failed to get AI review: " ++
          ("Gemini API error: " ++ jsTemplateOpt err.message))) ∧
    (resp.ok = true → resp.json.error = none → truthyExtract resp.json = none →
       getGeminiReview resp = Except.error
         "Failed to get AI review: No review content received from Gemini API") := by
  refine ⟨⟨?_, ?_⟩, ?_, ?_, ?_⟩
  · rintro ⟨text, htext⟩
    cases hok : resp.ok with
    | false => simp [getGeminiReview, getGeminiReviewTry, hok] at htext
    | true =>
      cases herr : resp.json.error with
      | some err => simp [getGeminiReview, getGeminiReviewTry, hok, herr] at htext
      | none =>
        cases hex : extractText resp.json with
        | none => simp [getGeminiReview, getGeminiReviewTry, hok, herr, hex] at htext
        | some t =>
          by_cases hte : t = ""
          · simp [getGeminiReview, getGeminiReviewTry, hok, herr, hex, hte] at htext
          · exact ⟨rfl, rfl, t, rfl, hte⟩
  · rintro ⟨hok, herr, text, hex, hte⟩
    exact ⟨text, by simp [getGeminiReview, getGeminiReviewTry, hok, herr, hex, hte]⟩
  · intro hok
    simp [getGeminiReview, getGeminiReviewTry, hok]
  · intro err hok herr
    simp [getGeminiReview, getGeminiReviewTry, hok, herr]
  · intro hok herr htruthy
    cases hex : extractText resp.json with
    | none => simp [getGeminiReview, getGeminiReviewTry, hok, herr, hex]
    | some t =>
      have hte : t = "" := by
        by_cases h : t = ""
        · exact h
        · simp [truthyExtract, hex, h] at htruthy
      simp [getGeminiReview, getGeminiReviewTry, hok, herr, hex, hte]

/-- A concrete response whose body carries an `error` field. -/
def respErrField : FetchResponse :=
  { ok := true, status := 200, statusText := "OK", bodyText := "",
    json := { candidates := none, error := some { message := some "API key invalid" } } }

/-- Witness for C6: on a response whose body carries an `error` field the
client fails with the wrapped API-error message. -/
theorem getGeminiReview_result_spec_witness :
    getGeminiReview respErrField =
      Except.error "Failed to get AI review: Gemini API error: API key invalid" := by
  have h := (getGeminiReview_result_spec respErrField).2.2.1
    { message := some "API key invalid" } rfl rfl
  simpa [jsTemplateOpt] using h

/-- The configuration and external-service inputs one execution of the
action observes: the `gemini_api_key` action input (`core.getInput`
yields the empty string when it is absent), the two environment
variables, the pull-request payload, the changed-file list returned by
the source-control service, and the generative endpoint response. -/
structure RunEnv where
  geminiKeyInput : String
  geminiKeyEnv : Option String
  githubToken : Option String
  hasPullRequest : Bool
  prTitle : Option String
  prBody : Option String
  files : List FileChange
  geminiResponse : FetchResponse

/-- `validateInputs()` of the source: the Gemini key is the action input
if truthy, else the environment variable; a falsy key or token throws. -/
def validateInputs (env : RunEnv) : Except String (String × String) :=
  let geminiKey : Option String :=
    if env.geminiKeyInput = "" then env.geminiKeyEnv else some env.geminiKeyInput
  match geminiKey with
  | none =>
    Except.error "Gemini API key is missing. Please provide it via \x27gemini_api_key\x27 input or \x27GEMINI_API_KEY\x27 environment variable."
  | some key =>
    if key = "" then
      Except.error "Gemini API key is missing. Please provide it via \x27gemini_api_key\x27 input or \x27GEMINI_API_KEY\x27 environment variable."
    else
      match env.githubToken with
      | none =>
        Except.error "GitHub token is missing. This should be automatically provided by GitHub Actions."
      | some token =>
        if token = "" then
          Except.error "GitHub token is missing. This should be automatically provided by GitHub Actions."
        else Except.ok (key, token)

/-- Terminal outcome of one execution: normal completion, or
`core.setFailed(msg)` (whether called directly or from the top-level
`catch`). -/
inductive RunStatus where
  | success
  | failed (msg : String)

/-- The externally observable result of one execution: the terminal
status, the prompt sent to the generative endpoint (`none` when that
endpoint was never invoked), and the body of the created PR comment
(`none` when `createComment` was never called). -/
structure RunResult where
  status : RunStatus
  geminiPrompt : Option String
  comment : Option String

/-- The `files.filter(file => !shouldExcludeFile(...))` step of `run`. -/
def filterFiles (files : List FileChange) : List FileChange :=
  files.filter (fun file => !(shouldExcludeFile file.filename file.patch))

/-- The summary template of `run`, instantiated with the reviewed-file
count, total file count, summed change count of the reviewed files, and
excluded-file count. -/
def mkSummary (reviewed total changes excluded : Nat) : String :=
  "**📊 Review Summary:**\n- Files reviewed: " ++ toString reviewed ++ "/" ++
    toString total ++ "\n- Total changes: " ++ toString changes ++
    " lines\n- Files excluded: " ++ toString excluded ++
    " (large files, lock files, etc.)\n\n"

/-- The body of `run()` after input validation: bail out on non-PR
events, filter the changed files, return silently when nothing is left,
otherwise build the prompt, consult the model, and on success post the
single comment assembled from the fixed header, the summary and the
review text.  A model-client failure propagates to the top-level `catch`
and becomes the failure status. -/
def runAfterValidation (env : RunEnv) : RunResult :=
  if env.hasPullRequest then
    let filesToReview := filterFiles env.files
    if filesToReview.length = 0 then
      { status := RunStatus.success, geminiPrompt := none, comment := none }
    else
      let reviewPrompt := createReviewPrompt filesToReview env.prTitle env.prBody
      match getGeminiReview env.geminiResponse with
      | Except.error msg =>
        { status := RunStatus.failed msg, geminiPrompt := some reviewPrompt,
          comment := none }
      | Except.ok reviewText =>
        { status := RunStatus.success, geminiPrompt := some reviewPrompt,
          comment := some ("🤖 **AI Code Review**\n\n" ++
            mkSummary filesToReview.length env.files.length
              (totalChanges filesToReview)
              (env.files.length - filesToReview.length) ++ reviewText) }
  else
    { status := RunStatus.failed "This action only runs on pull_request events.",
      geminiPrompt := none, comment := none }

/-- The orchestrator `run()` of the source: a validation failure is
caught at the top level and fails the run before any external call. -/
def run (env : RunEnv) : RunResult :=
  match validateInputs env with
  | Except.error msg =>
    { status := RunStatus.failed msg, geminiPrompt := none, comment := none }
  | Except.ok _ => runAfterValidation env

/-- With an `error` field in the response body, the model client never
returns a text. -/
theorem getGeminiReview_error_of_error_field (resp : FetchResponse)
    (err : GeminiError) (herr : resp.json.error = some err) :
    ∃ msg, getGeminiReview resp = Except.error msg := by
  cases hok : resp.ok with
  | false =>
    exact ⟨"Failed to get AI review: " ++
      ("Gemini API request failed: " ++ toString resp.status ++ " " ++
       resp.statusText ++ " - " ++ resp.bodyText),
      by simp [getGeminiReview, getGeminiReviewTry, hok]⟩
  | true =>
    exact ⟨"Failed to get AI review: " ++
      ("Gemini API error: " ++ jsTemplateOpt err.message),
      by simp [getGeminiReview, getGeminiReviewTry, hok, herr]⟩

end CodeBuddy

namespace CodeBuddy

/-- C7: when the generative-text response body carries an `error` field,
no comment is ever posted, and if the run got as far as invoking the
generative endpoint it terminates with a failure status. -/
theorem run_no_comment_on_gemini_error (env : RunEnv) (err : GeminiError)
    (herr : env.geminiResponse.json.error = some err) :
    (run env).comment = none ∧
    ((run env).geminiPrompt.isSome = true →
       ∃ msg, (run env).status = RunStatus.failed msg) := by
  obtain ⟨gmsg, hg⟩ := getGeminiReview_error_of_error_field env.geminiResponse err herr
  cases hv : validateInputs env with
  | error vmsg => simp [run, hv]
  | ok keys =>
    cases hpr : env.hasPullRequest with
    | false => simp [run, hv, runAfterValidation, hpr]
    | true =>
      by_cases hlen : (filterFiles env.files).length = 0
      · simp [run, hv, runAfterValidation, hpr, hlen]
      · simp [run, hv, runAfterValidation, hpr, hlen, hg]

/-- An environment with one reviewable file whose model response carries
an `error` field. -/
def envC7 : RunEnv :=
  { geminiKeyInput := "key", geminiKeyEnv := none, githubToken := some "token",
    hasPullRequest := true, prTitle := some "T", prBody := none,
    files := [patchedFile], geminiResponse := respErrField }

/-- Witness for C7: the model endpoint is reached, the run fails, and no
comment is created. -/
theorem run_no_comment_on_gemini_error_witness :
    (run envC7).comment = none ∧
    (run envC7).geminiPrompt.isSome = true ∧
    ∃ msg, (run envC7).status = RunStatus.failed msg := by
  have h := run_no_comment_on_gemini_error envC7
    { message := some "API key invalid" } rfl
  have hprompt : (run envC7).geminiPrompt.isSome = true := by decide
  exact ⟨h.1, hprompt, h.2 hprompt⟩

/-- C8: whenever validation passes, the event is a pull request, some
file survives the filter, and the model returns a non-empty text, the
posted comment body is exactly the fixed header, the instantiated
summary template, and that text. -/
theorem run_comment_body_on_success (env : RunEnv)
    (keys : String × String) (text : String)
    (hv : validateInputs env = Except.ok keys)
    (hpr : env.hasPullRequest = true)
    (hne : (filterFiles env.files).length ≠ 0)
    (hok : env.geminiResponse.ok = true)
    (herr : env.geminiResponse.json.error = none)
    (hex : extractText env.geminiResponse.json = some text)
    (hte : text ≠ "") :
    (run env).comment =
      some ("🤖 **AI Code Review**\n\n" ++
        mkSummary (filterFiles env.files).length env.files.length
          (totalChanges (filterFiles env.files))
          (env.files.length - (filterFiles env.files).length) ++ text) := by
  have hgem : getGeminiReview env.geminiResponse = Except.ok text := by
    simp [getGeminiReview, getGeminiReviewTry, hok, herr, hex, hte]
  simp [run, hv, runAfterValidation, hpr, hne, hgem]

/-- Reviewed file 1 of the end-to-end scenario (10 changed lines). -/
def smallFile1 : FileChange :=
  { filename := "src/index.ts", patch := some "+ const a = 1;",
    status := "modified", additions := 7, deletions := 3, changes := 10 }

/-- Excluded lock file of the end-to-end scenario. -/
def lockFile : FileChange :=
  { filename := "yarn.lock", patch := some "+ v2", status := "modified",
    additions := 50, deletions := 50, changes := 100 }

/-- Excluded oversized file of the end-to-end scenario (50001-character
patch). -/
def bigFile : FileChange :=
  { filename := "dist/generated.ts", patch := some bigPatch,
    status := "added", additions := 20, deletions := 0, changes := 20 }

/-- Reviewed file 2 of the end-to-end scenario (5 changed lines). -/
def smallFile2 : FileChange :=
  { filename := "README.md", patch := some "+ docs", status := "modified",
    additions := 5, deletions := 0, changes := 5 }

/-- Reviewed file 3 of the end-to-end scenario (30 changed lines). -/
def smallFile3 : FileChange :=
  { filename := "src/util.ts", patch := some "+ export", status := "modified",
    additions := 15, deletions := 15, changes := 30 }

/-- The single part of the successful model response. -/
def okPart : GeminiPart := { text := some "Looks good." }

/-- The content object of the successful model response. -/
def okContent : GeminiContent := { parts := some [okPart] }

/-- The single candidate of the successful model response. -/
def okCandidate : GeminiCandidate := { content := some okContent }

/-- A model response with one candidate carrying non-empty text. -/
def respOkText : FetchResponse :=
  { ok := true, status := 200, statusText := "OK", bodyText := "",
    json := { candidates := some [okCandidate], error := none } }

/-- The end-to-end scenario environment: 5 changed files, of which one is
a lock file and one is oversized. -/
def envC8 : RunEnv :=
  { geminiKeyInput := "gk", geminiKeyEnv := none, githubToken := some "tok",
    hasPullRequest := true, prTitle := some "Add feature",
    prBody := some "Details",
    files := [smallFile1, lockFile, bigFile, smallFile2, smallFile3],
    geminiResponse := respOkText }

/-- The oversized file of the scenario is excluded by the size check. -/
theorem shouldExcludeFile_bigFile :
    shouldExcludeFile "dist/generated.ts" (some bigPatch) = true := by
  have hlen : bigPatch.length > MAX_FILE_SIZE := by
    simp [bigPatch, MAX_FILE_SIZE]
  unfold shouldExcludeFile
  rw [if_neg (by decide)]
  have hne : bigPatch ≠ "" := by
    intro h
    rw [h] at hlen
    simp [MAX_FILE_SIZE] at hlen
  simp [hne, hlen]

/-- The filter keeps the oversized scenario file out. -/
theorem filterKeeps_bigFile_out :
    (fun file => !(shouldExcludeFile file.filename file.patch)) bigFile = false := by
  simp only [bigFile]
  rw [shouldExcludeFile_bigFile]
  rfl

/-- In the scenario, exactly the three small files survive the filter. -/
theorem filterFiles_envC8 :
    filterFiles envC8.files = [smallFile1, smallFile2, smallFile3] := by
  have c1 : (fun file => !(shouldExcludeFile file.filename file.patch)) smallFile1 = true := by
    decide
  have c2 : (fun file => !(shouldExcludeFile file.filename file.patch)) lockFile = false := by
    decide
  have c4 : (fun file => !(shouldExcludeFile file.filename file.patch)) smallFile2 = true := by
    decide
  have c5 : (fun file => !(shouldExcludeFile file.filename file.patch)) smallFile3 = true := by
    decide
  show List.filter (fun file => !(shouldExcludeFile file.filename file.patch))
    [smallFile1, lockFile, bigFile, smallFile2, smallFile3] = [smallFile1, smallFile2, smallFile3]
  rw [List.filter_cons_of_pos (by simp [c1]),
    List.filter_cons_of_neg (by simp [c2]),
    List.filter_cons_of_neg (by simp [filterKeeps_bigFile_out]),
    List.filter_cons_of_pos (by simp [c4]),
    List.filter_cons_of_pos (by simp [c5]),
    List.filter_nil]

/-- Witness for C8: in the 5-file scenario with 2 exclusions the posted
comment is the header plus the summary reading `Files reviewed: 3/5`,
`Total changes: 45 lines`, `Files excluded: 2`, followed by the model
text. -/
theorem run_comment_body_on_success_witness :
    (run envC8).comment =
      some ("🤖 **AI Code Review**\n\n**📊 Review Summary:**\n- Files reviewed: 3/5\n- Total changes: 45 lines\n- Files excluded: 2 (large files, lock files, etc.)\n\n" ++
        "Looks good.") := by
  have hne : (filterFiles envC8.files).length ≠ 0 := by
    rw [filterFiles_envC8]
    decide
  have h := run_comment_body_on_success envC8 ("gk", "tok") "Looks good."
    rfl rfl hne rfl rfl rfl (by decide)
  rw [h, filterFiles_envC8]
  rfl

/-- C10: when every changed file is excluded by the filter, the run ends
successfully, the generative endpoint is never invoked, and no comment is
created. -/
theorem run_skips_when_all_excluded (env : RunEnv) (keys : String × String)
    (hv : validateInputs env = Except.ok keys)
    (hpr : env.hasPullRequest = true)
    (hall : filterFiles env.files = []) :
    (run env).status = RunStatus.success ∧
    (run env).geminiPrompt = none ∧
    (run env).comment = none := by
  simp [run, hv, runAfterValidation, hpr, hall]

/-- An environment whose only changed file is a lock file. -/
def envC10 : RunEnv :=
  { geminiKeyInput := "gk", geminiKeyEnv := none, githubToken := some "tok",
    hasPullRequest := true, prTitle := none, prBody := none,
    files := [lockFile], geminiResponse := respErrField }

/-- Witness for C10: with only a lock file changed, the filter empties
the list and the run succeeds with no model call and no comment. -/
theorem run_skips_when_all_excluded_witness :
    filterFiles envC10.files = [] ∧
    (run envC10).status = RunStatus.success ∧
    (run envC10).geminiPrompt = none ∧
    (run envC10).comment = none := by
  have hall : filterFiles envC10.files = [] := by decide
  exact ⟨hall, run_skips_when_all_excluded envC10 ("gk", "tok") rfl rfl hall⟩

end CodeBuddy

namespace CodeBuddy

/-- C1: every filename matched by one of the fixed exclusion patterns
(lock files, minified/bundled assets, VCS metadata, OS artifacts,
temp/log files) is excluded by `shouldExcludeFile`, for every value of
the optional patch argument. -/
theorem shouldExcludeFile_excludes_matching_patterns
    (pattern : FilePattern) (hmem : pattern ∈ EXCLUDED_FILE_PATTERNS)
    (filename : String) (patch : Option String)
    (htest : pattern.test filename = true) :
    shouldExcludeFile filename patch = true := by
  unfold shouldExcludeFile
  rw [if_pos]
  exact List.any_eq_true.mpr ⟨pattern, hmem, htest⟩

/-- Witness for C1: the lock-file pattern is in the list, matches
`Cargo.lock`, and the filter excludes that file. -/
theorem shouldExcludeFile_excludes_matching_patterns_witness :
    FilePattern.endsWith ".lock" ∈ EXCLUDED_FILE_PATTERNS ∧
    FilePattern.test (FilePattern.endsWith ".lock") "Cargo.lock" = true ∧
    shouldExcludeFile "Cargo.lock" (some "tiny patch") = true :=
  ⟨List.mem_cons_self _ _, by decide,
    shouldExcludeFile_excludes_matching_patterns (FilePattern.endsWith ".lock")
      (List.mem_cons_self _ _) "Cargo.lock" (some "tiny patch") (by decide)⟩

/-- C2: every patch strictly longer than 50000 characters is excluded by
`shouldExcludeFile`, whatever the filename. -/
theorem shouldExcludeFile_excludes_oversized_patch
    (filename : String) (patchText : String)
    (hlen : patchText.length > MAX_FILE_SIZE) :
    shouldExcludeFile filename (some patchText) = true := by
  unfold shouldExcludeFile
  by_cases hpat : EXCLUDED_FILE_PATTERNS.any (fun pattern => pattern.test filename) = true
  · rw [if_pos hpat]
  · rw [if_neg hpat]
    have hne : patchText ≠ "" := by
      intro h
      rw [h] at hlen
      simp [MAX_FILE_SIZE] at hlen
    simp [hne, hlen]

/-- Witness for C2: the 50001-character patch is over the cap and is
excluded even though its filename matches no pattern. -/
theorem shouldExcludeFile_excludes_oversized_patch_witness :
    bigPatch.length > MAX_FILE_SIZE ∧
    shouldExcludeFile "src/data.ts" (some bigPatch) = true := by
  have hlen : bigPatch.length > MAX_FILE_SIZE := by
    simp [bigPatch, MAX_FILE_SIZE]
  exact ⟨hlen, shouldExcludeFile_excludes_oversized_patch "src/data.ts" bigPatch hlen⟩

/-- C9: the patterns `/\.git/` and `/node_modules/` are unanchored, so any
filename containing `.git` or `node_modules` anywhere — including files
under a `.github/` directory — is excluded, for every patch value. -/
theorem shouldExcludeFile_excludes_git_substring
    (filename : String) (patch : Option String)
    (h : containsSubstr filename ".git" = true ∨
         containsSubstr filename "node_modules" = true) :
    shouldExcludeFile filename patch = true := by
  unfold shouldExcludeFile
  rw [if_pos]
  apply List.any_eq_true.mpr
  rcases h with h | h
  · exact ⟨FilePattern.containsSub ".git", by simp [EXCLUDED_FILE_PATTERNS], h⟩
  · exact ⟨FilePattern.containsSub "node_modules", by simp [EXCLUDED_FILE_PATTERNS], h⟩

/-- Witness for C9: a GitHub workflow file is excluded because its path
contains the substring `.git`. -/
theorem shouldExcludeFile_excludes_git_substring_witness :
    containsSubstr ".github/workflows/ci.yml" ".git" = true ∧
    shouldExcludeFile ".github/workflows/ci.yml" (some "+ name: CI") = true :=
  ⟨by decide,
    shouldExcludeFile_excludes_git_substring ".github/workflows/ci.yml"
      (some "+ name: CI") (Or.inl (by decide))⟩

end CodeBuddy
